import Mathlib

/-!
# Verification of the bounded-concurrency async job pipeline of `mascot-gen`

This development shallowly embeds the core of `src/server.js` (and the live
variant of the Events API handler in `src/unnamed/part_001`):

* the admission gate `processWithConcurrencyLimit` (server.js lines 73-93),
* the retry executor `retryWithBackoff` (server.js lines 584-629),
* the event deduplication logic around `processedEvents`
  (server.js lines 79, 875-887; part_001 lines 921-937),
* the prompt/flag parsing `parsePromptWithFlags` (server.js lines 712-736),
* the slash-command dispatcher `handleTMAISlashCommand` (server.js lines 740-822),
* the app-mention webhook handler `fastify.post('/slack/image')`
  (server.js lines 835-1064; part_001 lines 855-1110).

JavaScript numbers used as counters are modelled as `Int` (so that decrements
below zero are representable and the lower bound of the counter invariant is a
real statement).  Thrown JS errors are modelled with `Except JsError`.
Mutable module state (`activeRequests`, `processedEvents`) is passed
explicitly.  Externally observable actions (Slack posts, provider calls) are
recorded as an explicit `Effect` list.
-/

/-- A JavaScript `Error` as used by the server: a message plus the optional
`status` field checked by the retry classifier (`error.status === 503`). -/
structure JsError where
  message : String
  status : Option Nat := none
deriving Repr, DecidableEq

/-- The error thrown by the admission gate when `activeRequests >= MAX_CONCURRENT`
(server.js line 84). -/
def tooManyError : JsError :=
  ⟨"Too many requests at once. Please try again in a moment.", none⟩

/-- The error produced by the per-attempt timeout race in `retryWithBackoff`
(server.js line 594). -/
def timeoutError : JsError := ⟨"Request timeout after 120 seconds", none⟩

/-- Models `throw lastError` after the loop (server.js line 628) in the only
situation where it is reachable, namely `maxRetries = 0`, where `lastError`
is still `undefined`. -/
def undefinedThrown : JsError := ⟨"undefined", none⟩

/-- The `TypeError` raised by a strict-mode assignment to a `const` binding
(`Assignment to constant variable.`), as triggered by server.js line 871. -/
def constAssignError : JsError := ⟨"Assignment to constant variable.", none⟩

/-- `leadsWith pat l` is true when `pat` is an initial segment of `l`. -/
def leadsWith : List Char → List Char → Bool
  | [], _ => true
  | _ :: _, [] => false
  | p :: ps, c :: cs => p == c && leadsWith ps cs

/-- `occursIn pat l` is true when `pat` occurs contiguously inside `l`. -/
def occursIn (pat : List Char) : List Char → Bool
  | [] => leadsWith pat []
  | c :: cs => leadsWith pat (c :: cs) || occursIn pat cs

/-- JavaScript `String.prototype.includes`. -/
def containsSub (s pat : String) : Bool := occursIn pat.toList s.toList

/-- The retryable-error classifier of `retryWithBackoff` (server.js lines 608-612):
the message contains one of the designated substrings, or `status === 503`. -/
def isRetryable (e : JsError) : Bool :=
  containsSub e.message "overloaded" ||
  containsSub e.message "503" ||
  containsSub e.message "UNAVAILABLE" ||
  containsSub e.message "Request timeout" ||
  e.status == some 503

/-- The attempt loop of `retryWithBackoff` (server.js lines 588-626).  The
`operation`, raced against the timeout, is modelled as a function from the
attempt number to its settled outcome (a timeout of attempt `n` is
`op n = .error timeoutError`).  The result is the final outcome together with
the number of times the operation was invoked.  The first argument is fuel;
`retryWithBackoff` supplies `maxRetries + 1`, which never runs out before the
loop condition `attempt <= maxRetries` exits (the attempt counter increases by
one per iteration). -/
def retryLoop {V : Type} (op : Nat → Except JsError V) (maxRetries : Nat) :
    Nat → Nat → Option JsError → Except JsError V × Nat
  | 0, _, lastError => (.error (lastError.getD undefinedThrown), 0)
  | fuel + 1, attempt, lastError =>
    if maxRetries < attempt then
      -- the `for` loop has exhausted its range: `throw lastError` (line 628)
      (.error (lastError.getD undefinedThrown), 0)
    else
      match op attempt with
      | .ok v => (.ok v, 1)                 -- success: return immediately (line 601)
      | .error e =>
        -- `if (!isRetryable || attempt === maxRetries) throw error` (line 616)
        if !isRetryable e || attempt == maxRetries then (.error e, 1)
        else
          match retryLoop op maxRetries fuel (attempt + 1) (some e) with
          | (r, n) => (r, n + 1)

/-- `retryWithBackoff(operation, maxRetries, ...)` (server.js line 585): run the
attempt loop starting at attempt 1 with no last error recorded. -/
def retryWithBackoff {V : Type} (op : Nat → Except JsError V) (maxRetries : Nat) :
    Except JsError V × Nat :=
  retryLoop op maxRetries (maxRetries + 1) 1 none

/-! ## Admission gate (server.js lines 73-93)

`activeRequests` is a module-level JS number mutated by
`processWithConcurrencyLimit`: the check `activeRequests >= MAX_CONCURRENT`
(line 83), the increment (line 87) and the `finally` decrement (line 91).
The check and increment run with no `await` between them, so they form one
uninterrupted step of the single-threaded event loop; the decrement is a
separate step that can interleave with other jobs.  Event-level semantics:
-/

/-- `MAX_CONCURRENT` (server.js line 75). -/
def MAX_CONCURRENT : Nat := 20

/-- One atomic action on the shared counter: a successful admission
(check-and-increment), a failed admission (check only, counter untouched), or
the `finally` decrement of a previously admitted job. -/
inductive GateEvent where
  | admitOk
  | admitFail
  | rel
deriving Repr, DecidableEq

/-- Guarded semantics of one gate action on (counter, outstanding admitted
jobs).  `admitOk` can fire only when the check `activeRequests >= MAX_CONCURRENT`
fails, `admitFail` only when it holds, and `rel` only when some admitted job
has not yet run its `finally` decrement (the `try/finally` shape of
lines 88-92 guarantees the decrement is executed exactly once per admission). -/
def gateStep : Int × Nat → GateEvent → Option (Int × Nat)
  | (c, o), .admitOk => if c < (MAX_CONCURRENT : Int) then some (c + 1, o + 1) else none
  | (c, o), .admitFail => if (MAX_CONCURRENT : Int) ≤ c then some (c, o) else none
  | (c, o), .rel => if 0 < o then some (c - 1, o - 1) else none

/-- Run a sequence of gate actions, returning the state after every action
(or `none` if some action fires outside its guard). -/
def runGate : Int × Nat → List GateEvent → Option (List (Int × Nat))
  | _, [] => some []
  | s, ev :: evs =>
    match gateStep s ev with
    | none => none
    | some s2 =>
      match runGate s2 evs with
      | none => none
      | some states => some (s2 :: states)

/-- `processWithConcurrencyLimit` (server.js lines 82-93) as a whole-job
summary: given the counter at entry and the settled outcome of `requestFn()`,
it yields the counter after the job, the outcome delivered to the caller, and
the gate actions the job performed.  On admission the counter is incremented
and then decremented once in `finally`, whether `requestFn` resolves or
rejects, and the outcome (value or rethrown error) is passed through. -/
def processWithConcurrencyLimit {α : Type} (activeRequests : Int)
    (req : Except JsError α) : Int × Except JsError α × List GateEvent :=
  if (MAX_CONCURRENT : Int) ≤ activeRequests then
    (activeRequests, .error tooManyError, [.admitFail])
  else
    (activeRequests + 1 - 1, req, [.admitOk, .rel])

/-- A sequence of `n` admission attempts with no intervening releases,
starting from counter `c`: returns the final counter and how many attempts
succeeded. -/
def tryAdmitSeq : Int → Nat → Int × Nat
  | c, 0 => (c, 0)
  | c, n + 1 =>
    if (MAX_CONCURRENT : Int) ≤ c then tryAdmitSeq c n
    else
      let r := tryAdmitSeq (c + 1) n
      (r.1, r.2 + 1)

/-! ## Observable effects and the deferred completion of `/tmai` jobs -/

/-- Externally observable actions of a job. -/
inductive Effect where
  | postMessage (channel text threadTs : String)
  | postAck (channel : String) (threadTs : Option String)
  | providerCall
  | uploadFile (channel threadTs : String)
deriving Repr, DecidableEq

/-- Terminal status of the detached `setTimeout` callback. -/
inductive AsyncOutcome where
  | completed
  | notifiedError (text : String)
  | escapedException (e : JsError)
deriving Repr, DecidableEq

/-- The detached completion phase of `handleTMAISlashCommand`
(server.js lines 777-810): the `setTimeout` callback runs
`processWithConcurrencyLimit` over the admitted work and, in its `catch`,
posts `❌ ${error.message}` to the acknowledgment thread.  `work` is the
settled outcome and effect trace of the admitted work (template load, provider
call via `retryWithBackoff`, save, upload); `notifyRes` is the settled outcome
of the `catch`-block `chat.postMessage` call, which the code does not guard:
if it rejects, the async function rejects with that error and nothing catches
it (`escapedException`). -/
def handleTMAIAsync (active : Int) (channelId threadTs : String)
    (work : Except JsError Unit × List Effect) (notifyRes : Except JsError Unit) :
    Int × AsyncOutcome × List Effect :=
  if (MAX_CONCURRENT : Int) ≤ active then
    -- admission fails before the work is invoked (line 84); catch at 803-809
    match notifyRes with
    | .ok _ =>
      (active, .notifiedError ("❌ " ++ tooManyError.message),
        [.postMessage channelId ("❌ " ++ tooManyError.message) threadTs])
    | .error e2 => (active, .escapedException e2, [])
  else
    match work.1 with
    | .ok _ => (active + 1 - 1, .completed, work.2)
    | .error e =>
      match notifyRes with
      | .ok _ =>
        (active + 1 - 1, .notifiedError ("❌ " ++ e.message),
          work.2 ++ [.postMessage channelId ("❌ " ++ e.message) threadTs])
      | .error e2 => (active + 1 - 1, .escapedException e2, work.2)

/-! ## Event deduplication (server.js lines 79, 875-887; part_001 lines 921-937)

`processedEvents` is a module-level JS `Set` of idempotency keys; a JS `Set`
iterates in insertion order and `values().next().value` is the oldest
inserted member.  It is modelled as a `List String` in insertion order
(oldest first); the source never inserts a key that is already present, so
the list never holds duplicates. -/

/-- The dedup step of the mention handler: `processedEvents.has(key)` /
`processedEvents.add(key)` / evict the oldest member while the size exceeds
100 (server.js lines 875-887, part_001 lines 925-937).  Returns whether the
key was already present, and the updated set. -/
def markProcessedEvent (seen : List String) (key : String) : Bool × List String :=
  if key ∈ seen then (true, seen)
  else
    let seen1 := seen ++ [key]
    if 100 < seen1.length then (false, seen1.drop 1) else (false, seen1)

/-- Feed a sequence of keys through `markProcessedEvent`. -/
def insertAll (seen : List String) : List String → List String
  | [] => seen
  | k :: ks => insertAll (markProcessedEvent seen k).2 ks

/-- The last `n` elements of a list. -/
def takeLast {α : Type} (n : Nat) (l : List α) : List α := l.drop (l.length - n)

/-- The idempotency key `${event.channel}_${event.user}_${event.event_ts}`
(server.js line 871, part_001 line 921). -/
def mentionDedupKey (channel user event_ts : String) : String :=
  channel ++ "_" ++ user ++ "_" ++ event_ts

/-! ## Prompt and flag parsing (server.js lines 712-736, 940-958)

The source uses three regex operations over the command/mention text:

* `commandText.match` with regex `--ratio\s+([^\s]+)` in `parsePromptWithFlags`,
* `prompt.match` with regex `--ratio\s+(\d+:\d+)` in the mention handler,
* `commandText.replace` with global regex `--\w+\s*([^\s]*)?` to strip flags,

plus `text.replace(botUserId, '')` (a plain-string `replace`, which replaces
only the first occurrence) and `.trim()`.  They are embedded directly as
scans over `List Char`; all the quantifiers involved are greedy over
character classes that are disjoint from what follows them, so maximal-munch
scanning coincides with the regex semantics. -/

/-- JavaScript `\s` restricted to the ASCII whitespace characters (the only
ones that can occur in the texts handled here). -/
def isJsWhitespace (c : Char) : Bool :=
  c == ' ' || c == '\t' || c == '\n' || c == '\r' || c == '\x0b' || c == '\x0c'

/-- JavaScript `\w`: ASCII letters, digits and underscore. -/
def isWordChar (c : Char) : Bool := c.isAlpha || c.isDigit || c == '_'

/-- JavaScript `String.prototype.trim` on the character list. -/
def trimJs (l : List Char) : List Char :=
  ((l.dropWhile isJsWhitespace).reverse.dropWhile isJsWhitespace).reverse

/-- JavaScript `s.replace(pat, '')` with a plain-string pattern: remove the
first (leftmost) occurrence of `pat`, if any.  The first argument is fuel
(always instantiated with the text length, which bounds the scan). -/
def replaceFirst : Nat → List Char → List Char → List Char
  | 0, _, l => l
  | _ + 1, _, [] => []
  | fuel + 1, pat, c :: rest =>
    if leadsWith pat (c :: rest) then (c :: rest).drop pat.length
    else c :: replaceFirst fuel pat rest

/-- The literal `--ratio` of both ratio regexes. -/
def ratioFlagLit : List Char := "--ratio".toList

/-- Try to match `--ratio\s+([^\s]+)` at the start of `l`; on success return
(whole match, captured token). -/
def matchRatioFlagAt (l : List Char) : Option (List Char × List Char) :=
  if leadsWith ratioFlagLit l then
    let l1 := l.drop ratioFlagLit.length
    let ws := l1.takeWhile isJsWhitespace
    if ws.isEmpty then none
    else
      let l2 := l1.drop ws.length
      let tok := l2.takeWhile (fun c => !isJsWhitespace c)
      if tok.isEmpty then none
      else some (ratioFlagLit ++ ws ++ tok, tok)
  else none

/-- `commandText.match` with regex `--ratio\s+([^\s]+)`: leftmost match. -/
def findRatioFlag : List Char → Option (List Char × List Char)
  | [] => none
  | c :: cs =>
    match matchRatioFlagAt (c :: cs) with
    | some r => some r
    | none => findRatioFlag cs

/-- Try to match `--ratio\s+(\d+:\d+)` at the start of `l`; on success return
(whole match, captured token). -/
def matchDigitsRatioAt (l : List Char) : Option (List Char × List Char) :=
  if leadsWith ratioFlagLit l then
    let l1 := l.drop ratioFlagLit.length
    let ws := l1.takeWhile isJsWhitespace
    if ws.isEmpty then none
    else
      let l2 := l1.drop ws.length
      let d1 := l2.takeWhile Char.isDigit
      if d1.isEmpty then none
      else
        match l2.drop d1.length with
        | ':' :: l3 =>
          let d2 := l3.takeWhile Char.isDigit
          if d2.isEmpty then none
          else some (ratioFlagLit ++ ws ++ d1 ++ ':' :: d2, d1 ++ ':' :: d2)
        | _ => none
  else none

/-- `prompt.match` with regex `--ratio\s+(\d+:\d+)`: leftmost match. -/
def findDigitsRatio : List Char → Option (List Char × List Char)
  | [] => none
  | c :: cs =>
    match matchDigitsRatioAt (c :: cs) with
    | some r => some r
    | none => findDigitsRatio cs

/-- Try to match `--\w+\s*([^\s]*)?` at the start of `l`; on success return the
length of the whole match (always at least 3). -/
def matchFlagStripAt (l : List Char) : Option Nat :=
  if leadsWith "--".toList l then
    let l1 := l.drop 2
    let w := l1.takeWhile isWordChar
    if w.isEmpty then none
    else
      let l2 := l1.drop w.length
      let ws := l2.takeWhile isJsWhitespace
      let l3 := l2.drop ws.length
      let tok := l3.takeWhile (fun c => !isJsWhitespace c)
      some (2 + w.length + ws.length + tok.length)
  else none

/-- `commandText.replace` with global regex `--\w+\s*([^\s]*)?`: remove every flag match,
scanning left to right.  Fuel is the text length (every step consumes at
least one character). -/
def stripFlags : Nat → List Char → List Char
  | 0, l => l
  | _ + 1, [] => []
  | fuel + 1, c :: rest =>
    match matchFlagStripAt (c :: rest) with
    | some n => stripFlags fuel ((c :: rest).drop n)
    | none => c :: stripFlags fuel rest

/-- `supportedRatios` (server.js lines 714, 944). -/
def supportedRatios : List String := ["1:1", "3:4", "4:3", "9:16", "16:9"]

/-- Result of `parsePromptWithFlags`. -/
structure ParsedPrompt where
  prompt : String
  ratio : String
deriving Repr, DecidableEq

/-- `parsePromptWithFlags` (server.js lines 712-736): extract the `--ratio`
token (falling back to the default `16:9`, with only a console warning, when
the token is not in `supportedRatios`), and strip all `--flag value` groups
from the prompt. -/
def parsePromptWithFlags (commandText : String) : ParsedPrompt :=
  let ratio :=
    match findRatioFlag commandText.toList with
    | some (_, tok) =>
      if supportedRatios.contains (String.mk tok) then String.mk tok else "16:9"
    | none => "16:9"
  let prompt :=
    String.mk (trimJs (stripFlags commandText.toList.length commandText.toList))
  ⟨prompt, ratio⟩

/-! ## The app-mention handler and the slash-command dispatcher -/

/-- The fields of a Slack `app_mention` event used by the handlers. -/
structure MentionEvent where
  channel : String
  user : String
  text : String
  event_ts : String
  ts : String
  filesCount : Nat
deriving Repr, DecidableEq

/-- The idempotency key of a mention event (part_001 line 921,
server.js line 871). -/
def dedupKey (e : MentionEvent) : String :=
  mentionDedupKey e.channel e.user e.event_ts

/-- Synchronous outcome of the mention handler's `event_callback` branch. -/
inductive MentionOutcome where
  | skippedDuplicate
  | skippedMissingData
  | promptMissing
  | filesMissing
  | unsupportedRatio (tok : String)
  | dispatched (prompt ratio : String)
deriving Repr, DecidableEq

/-- Validation message posted when the prompt is empty after stripping the
mention (part_001 line 977, server.js line 925). -/
def descriptionMissingMsg : String :=
  "❌ Please include a description for what you want me to do with your image(s)!"

/-- Error message posted for an unsupported `d+:d+` ratio token
(part_001 line 996, server.js line 954). -/
def unsupportedRatioMsg (tok : String) : String :=
  "❌ Unsupported aspect ratio: " ++ tok ++
    "\n\nSupported ratios: 1:1, 3:4, 4:3, 9:16, 16:9"

/-- Message posted by the server.js variant when a mention carries no files
(server.js line 935). -/
def filesRequiredMsg : String :=
  "❌ Please include image(s) with your mention!\n\nExample: @bot Make this look professional --ratio 16:9 [+ attach image(s)]\n\n💡 The Events API requires image attachments to work!"

/-- The `event_callback`/`app_mention` branch of the `/slack/image` handler in
part_001 (lines 921-1055): dedup check and insertion, safety check on the
critical fields, prompt extraction (`text.replace(botUserId, '').trim()`),
prompt validation, ratio extraction with regex `--ratio\s+(\d+:\d+)`, then
acknowledgment post into the thread of the original message and scheduling of
the deferred generation.  Returns the outcome, the updated `processedEvents`
set, and the posted messages. -/
def handleMention (seen : List String) (botUserId : String) (e : MentionEvent) :
    MentionOutcome × List String × List Effect :=
  let r := markProcessedEvent seen (dedupKey e)
  if r.1 then (.skippedDuplicate, seen, [])
  else
    let seen2 := r.2
    -- `if (!user || !channel || !text || text.trim().length === 0)` (line 959)
    if e.user == "" || e.channel == "" || e.text == "" ||
        String.mk (trimJs e.text.toList) == "" then
      (.skippedMissingData, seen2, [])
    else
      let mention := "<@" ++ botUserId ++ ">"
      let prompt :=
        String.mk (trimJs (replaceFirst e.text.toList.length mention.toList
          e.text.toList))
      -- `if (!prompt || prompt.trim().length === 0)` (line 973)
      if prompt == "" then
        (.promptMissing, seen2, [.postMessage e.channel descriptionMissingMsg e.ts])
      else
        match findDigitsRatio prompt.toList with
        | none => (.dispatched prompt "16:9", seen2, [.postAck e.channel (some e.ts)])
        | some (whole, tok) =>
          let tokS := String.mk tok
          if supportedRatios.contains tokS then
            let prompt2 :=
              String.mk (trimJs (replaceFirst prompt.toList.length whole
                prompt.toList))
            (.dispatched prompt2 tokS, seen2, [.postAck e.channel (some e.ts)])
          else
            (.unsupportedRatio tokS, seen2,
              [.postMessage e.channel (unsupportedRatioMsg tokS) e.ts])

/-- Synchronous outcome of `handleTMAISlashCommand`. -/
inductive SlashOutcome where
  | validationError
  | dispatched (prompt ratio : String)
deriving Repr, DecidableEq

/-- The synchronous phase of `handleTMAISlashCommand` (server.js lines
740-776, 812-813): parse the command text; if the prompt is empty, return the
ephemeral usage/validation message immediately (lines 748-753) — no
acknowledgment is posted, nothing is scheduled, and the in-flight counter is
untouched (admission happens only inside the deferred callback).  Otherwise
post the acknowledgment and schedule the deferred work.  Returns the outcome,
the counter, whether the deferred callback was scheduled, and the effects. -/
def handleTMAISlashCommandSync (active : Int) (commandText channelId : String) :
    SlashOutcome × Int × Bool × List Effect :=
  let p := parsePromptWithFlags commandText
  if p.prompt == "" then (.validationError, active, false, [])
  else (.dispatched p.prompt p.ratio, active, true, [.postAck channelId none])

/-- Models a strict-mode JavaScript assignment to a `const`-declared binding,
which always throws `TypeError: Assignment to constant variable.`. -/
def assignToConst {α : Type} (_current _newValue : α) : Except JsError α :=
  Except.error constAssignError

/-- A parsed request body of the `/slack/image` Events API endpoint. -/
inductive SlackBody where
  | urlVerification (challenge : String)
  | eventCallback (eventType : String) (event : MentionEvent) (event_id : String)
deriving Repr, DecidableEq

/-- HTTP-level reply of the `/slack/image` endpoint. -/
inductive WebhookReply where
  | challengeReply (challenge : String)
  | okReply
  | http500 (msg : String)
deriving Repr, DecidableEq

/-- The rest of the server.js mention branch (lines 875-1050) as it is
written: dedup, safety check, prompt extraction and validation, the
images-required check (lines 931-938), ratio extraction, acknowledgment and
scheduling.  At runtime this code is unreachable (see
`slackImageEndpointServerJs`), but it is embedded in full so that nothing of
the handler is elided. -/
def mentionRestServerJs (seen : List String) (botUserId : String)
    (e : MentionEvent) : MentionOutcome × List String × List Effect :=
  let r := markProcessedEvent seen (dedupKey e)
  if r.1 then (.skippedDuplicate, seen, [])
  else
    let seen2 := r.2
    if e.user == "" || e.channel == "" || e.text == "" ||
        String.mk (trimJs e.text.toList) == "" then
      (.skippedMissingData, seen2, [])
    else
      let mention := "<@" ++ botUserId ++ ">"
      let prompt :=
        String.mk (trimJs (replaceFirst e.text.toList.length mention.toList
          e.text.toList))
      if prompt == "" then
        (.promptMissing, seen2, [.postMessage e.channel descriptionMissingMsg e.ts])
      else if e.filesCount == 0 then
        (.filesMissing, seen2, [.postMessage e.channel filesRequiredMsg e.ts])
      else
        match findDigitsRatio prompt.toList with
        | none => (.dispatched prompt "16:9", seen2, [.postAck e.channel (some e.ts)])
        | some (whole, tok) =>
          let tokS := String.mk tok
          if supportedRatios.contains tokS then
            let prompt2 :=
              String.mk (trimJs (replaceFirst prompt.toList.length whole
                prompt.toList))
            (.dispatched prompt2 tokS, seen2, [.postAck e.channel (some e.ts)])
          else
            (.unsupportedRatio tokS, seen2,
              [.postMessage e.channel (unsupportedRatioMsg tokS) e.ts])

/-- The `/slack/image` endpoint of server.js (lines 835-1064).  Inside the
`event_callback`/`app_mention` branch, line 856 declares
`const eventId = request.body.event_id;` and line 871 then executes
`eventId = ...` — a strict-mode assignment to a `const` binding, which throws
before the duplicate check at line 875 can run.  The `try/catch` wrapping the
whole handler (lines 836, 1056-1063) turns the `TypeError` into an HTTP 500
reply `{ error: 'Webhook processing failed' }`, with `processedEvents`
unchanged and no message posted. -/
def slackImageEndpointServerJs (seen : List String) (botUserId : String)
    (body : SlackBody) : WebhookReply × List String × List Effect :=
  match body with
  | .urlVerification ch => (.challengeReply ch, seen, [])
  | .eventCallback eventType e eventId =>
    if eventType != "app_mention" then (.okReply, seen, [])
    else
      match assignToConst eventId (dedupKey e) with
      | .error _ => (.http500 "Webhook processing failed", seen, [])
      | .ok _ =>
        let r := mentionRestServerJs seen botUserId e
        (.okReply, r.2.1, r.2.2)

/-! ## Theorems: retry executor -/

/-- The invocation count of the attempt loop is bounded by the remaining
attempt budget. -/
theorem retryLoop_count_le {V : Type} (op : Nat → Except JsError V) (m : Nat) :
    ∀ (fuel attempt : Nat) (last : Option JsError),
      (retryLoop op m fuel attempt last).2 ≤ m + 1 - attempt := by
  intro fuel
  induction fuel with
  | zero => intro attempt last; simp [retryLoop]
  | succ f ih =>
    intro attempt last
    by_cases h1 : m < attempt
    · have h0 : (retryLoop op m (f + 1) attempt last).2 = 0 := by
        rw [retryLoop, if_pos h1]
      omega
    · cases hop : op attempt with
      | ok v =>
        have h0 : (retryLoop op m (f + 1) attempt last).2 = 1 := by
          rw [retryLoop, if_neg h1, hop]
        omega
      | error e =>
        by_cases h2 : (!isRetryable e || attempt == m) = true
        · have h0 : (retryLoop op m (f + 1) attempt last).2 = 1 := by
            rw [retryLoop, if_neg h1, hop]
            simp [h2]
          omega
        · have h4 : (retryLoop op m f (attempt + 1) (some e)).2 ≤ m + 1 - (attempt + 1) :=
            ih (attempt + 1) (some e)
          have h0 : (retryLoop op m (f + 1) attempt last).2
              = (retryLoop op m f (attempt + 1) (some e)).2 + 1 := by
            rw [retryLoop, if_neg h1, hop]
            simp [h2]
          omega

/-- If every attempt in the remaining budget fails with a retryable error,
the loop performs exactly the remaining attempts and raises the error of the
last one. -/
theorem retryLoop_all_retryable {V : Type} (op : Nat → Except JsError V) (m : Nat)
    (es : Nat → JsError)
    (hop : ∀ n, 1 ≤ n → n ≤ m → op n = .error (es n))
    (hr : ∀ n, 1 ≤ n → n ≤ m → isRetryable (es n) = true) :
    ∀ (fuel attempt : Nat) (last : Option JsError),
      1 ≤ attempt → attempt ≤ m → m + 1 - attempt ≤ fuel →
      retryLoop op m fuel attempt last = (.error (es m), m + 1 - attempt) := by
  intro fuel
  induction fuel with
  | zero => intro attempt last ha1 ha2 ha3; omega
  | succ f ih =>
    intro attempt last ha1 ha2 ha3
    have hnl : ¬ m < attempt := by omega
    by_cases he : attempt = m
    · subst he
      have h1 : attempt + 1 - attempt = 1 := by omega
      rw [h1, retryLoop, if_neg hnl, hop attempt ha1 ha2]
      simp
    · have hcond : (!isRetryable (es attempt) || attempt == m) = false := by
        simp [hr attempt ha1 ha2, he]
      have heq : m + 1 - attempt = (m + 1 - (attempt + 1)) + 1 := by omega
      rw [heq, retryLoop, if_neg hnl, hop attempt ha1 ha2]
      simp only [hcond, Bool.false_eq_true, if_false]
      rw [ih (attempt + 1) (some (es attempt)) (by omega) (by omega) (by omega)]

/-- **C2**: for every operation and every attempt budget, `retryWithBackoff`
invokes the operation at most `maxAttempts` times; and for `maxAttempts >= 1`,
if every attempt fails with a retryable error, the operation is invoked
exactly `maxAttempts` times and the executor raises the error of the last
attempt. -/
theorem backoff_attempt_cap :
    (∀ (V : Type) (op : Nat → Except JsError V) (m : Nat),
        (retryWithBackoff op m).2 ≤ m)
    ∧ (∀ (V : Type) (op : Nat → Except JsError V) (m : Nat) (es : Nat → JsError),
        1 ≤ m →
        (∀ n, 1 ≤ n → n ≤ m → op n = .error (es n) ∧ isRetryable (es n) = true) →
        retryWithBackoff op m = (.error (es m), m)) := by
  constructor
  · intro V op m
    have h := retryLoop_count_le op m (m + 1) 1 none
    simpa using h
  · intro V op m es hm h
    have h2 := retryLoop_all_retryable op m es
      (fun n h1 h2 => (h n h1 h2).1) (fun n h1 h2 => (h n h1 h2).2)
      (m + 1) 1 none (by omega) hm (by omega)
    rw [retryWithBackoff, h2]
    simp

/-- Witness for C2: a 3-attempt budget against an operation that always times
out is invoked exactly 3 times and raises the timeout error. -/
theorem backoff_attempt_cap_witness :
    1 ≤ 3 ∧
    retryWithBackoff (fun _ => (Except.error timeoutError : Except JsError Unit)) 3
      = (.error timeoutError, 3) := by
  refine ⟨by decide, ?_⟩
  exact backoff_attempt_cap.2 Unit (fun _ => .error timeoutError) 3
    (fun _ => timeoutError) (by decide)
    (fun n _ _ => ⟨rfl, show isRetryable timeoutError = true from by decide⟩)

/-- If every attempt before `k` fails with a retryable error and attempt `k`
fails with a fatal (non-retryable) error, the loop stops at attempt `k`: the
fatal error is raised immediately and no further attempt is made. -/
theorem retryLoop_first_fatal {V : Type} (op : Nat → Except JsError V) (m k : Nat)
    (e : JsError) (hkm : k ≤ m)
    (hpre : ∀ i, 1 ≤ i → i < k → ∃ ei, op i = .error ei ∧ isRetryable ei = true)
    (hop : op k = .error e) (hfatal : isRetryable e = false) :
    ∀ (fuel attempt : Nat) (last : Option JsError),
      1 ≤ attempt → attempt ≤ k → m + 1 - attempt ≤ fuel →
      retryLoop op m fuel attempt last = (.error e, k + 1 - attempt) := by
  intro fuel
  induction fuel with
  | zero => intro attempt last ha1 ha2 ha3; omega
  | succ f ih =>
    intro attempt last ha1 ha2 ha3
    have hnl : ¬ m < attempt := by omega
    by_cases he : attempt = k
    · subst he
      have h1 : attempt + 1 - attempt = 1 := by omega
      rw [h1, retryLoop, if_neg hnl, hop]
      simp [hfatal]
    · have hlt : attempt < k := by omega
      obtain ⟨ei, hei, hri⟩ := hpre attempt ha1 hlt
      have hcond : (!isRetryable ei || attempt == m) = false := by
        have hne : attempt ≠ m := by omega
        simp [hri, hne]
      have heq : k + 1 - attempt = (k + 1 - (attempt + 1)) + 1 := by omega
      rw [heq, retryLoop, if_neg hnl, hei]
      simp only [hcond, Bool.false_eq_true, if_false]
      rw [ih (attempt + 1) (some ei) (by omega) (by omega) (by omega)]

/-- Within the loop, an attempt is followed by a further invocation only if
it failed with an error classified retryable. -/
theorem retryLoop_retried_retryable {V : Type} (op : Nat → Except JsError V)
    (m : Nat) :
    ∀ (fuel attempt : Nat) (last : Option JsError) (i : Nat),
      attempt ≤ i →
      i + 1 < attempt + (retryLoop op m fuel attempt last).2 →
      ∃ e, op i = .error e ∧ isRetryable e = true := by
  intro fuel
  induction fuel with
  | zero =>
    intro attempt last i hi hlt
    exfalso
    have h0 : (retryLoop op m 0 attempt last).2 = 0 := by rw [retryLoop]
    omega
  | succ f ih =>
    intro attempt last i hi hlt
    by_cases hm : m < attempt
    · exfalso
      have h0 : (retryLoop op m (f + 1) attempt last).2 = 0 := by
        rw [retryLoop, if_pos hm]
      omega
    · cases hop : op attempt with
      | ok v =>
        exfalso
        have h0 : (retryLoop op m (f + 1) attempt last).2 = 1 := by
          rw [retryLoop, if_neg hm, hop]
        omega
      | error e =>
        by_cases hc : (!isRetryable e || attempt == m) = true
        · exfalso
          have h0 : (retryLoop op m (f + 1) attempt last).2 = 1 := by
            rw [retryLoop, if_neg hm, hop]
            simp [hc]
          omega
        · have hre : isRetryable e = true := by
            revert hc
            cases isRetryable e <;> simp
          have h0 : (retryLoop op m (f + 1) attempt last).2
              = (retryLoop op m f (attempt + 1) (some e)).2 + 1 := by
            rw [retryLoop, if_neg hm, hop]
            simp [hc]
          by_cases hieq : i = attempt
          · subst hieq
            exact ⟨e, hop, hre⟩
          · exact ih (attempt + 1) (some e) i (by omega) (by omega)

/-- **C3**: a failed attempt is retried only when its error is classified
retryable (a per-attempt timeout is so classified); every other error is
fatal and is raised immediately with no further attempts, at whatever attempt
it occurs — in particular an operation whose first attempt fails with a
non-retryable error is invoked exactly once. -/
theorem backoff_fatal_short_circuit :
    isRetryable timeoutError = true
    ∧ (∀ (V : Type) (op : Nat → Except JsError V) (m k : Nat) (e : JsError),
        1 ≤ k → k ≤ m →
        (∀ i, 1 ≤ i → i < k → ∃ ei, op i = .error ei ∧ isRetryable ei = true) →
        op k = .error e → isRetryable e = false →
        retryWithBackoff op m = (.error e, k))
    ∧ (∀ (V : Type) (op : Nat → Except JsError V) (m i : Nat),
        1 ≤ i → i < (retryWithBackoff op m).2 →
        ∃ e, op i = .error e ∧ isRetryable e = true)
    ∧ (∀ (V : Type) (op : Nat → Except JsError V) (m : Nat) (e : JsError),
        1 ≤ m → op 1 = .error e → isRetryable e = false →
        retryWithBackoff op m = (.error e, 1)) := by
  have hgen : ∀ (V : Type) (op : Nat → Except JsError V) (m k : Nat) (e : JsError),
      1 ≤ k → k ≤ m →
      (∀ i, 1 ≤ i → i < k → ∃ ei, op i = .error ei ∧ isRetryable ei = true) →
      op k = .error e → isRetryable e = false →
      retryWithBackoff op m = (.error e, k) := by
    intro V op m k e hk1 hkm hpre hop hfatal
    have h := retryLoop_first_fatal op m k e hkm hpre hop hfatal
      (m + 1) 1 none (by omega) hk1 (by omega)
    rw [retryWithBackoff, h]
    simp
  refine ⟨by decide, hgen, ?_, ?_⟩
  · intro V op m i hi hlt
    rw [retryWithBackoff] at hlt
    exact retryLoop_retried_retryable op m (m + 1) 1 none i hi (by omega)
  · intro V op m e hm hop hfatal
    exact hgen V op m 1 e (by omega) hm (fun i h1 h2 => absurd h1 (by omega))
      hop hfatal

/-- Witness for C3: an operation that times out on attempt 1 and fails with a
non-retryable HTTP 400 error on attempt 2 is stopped at attempt 2 of a
5-attempt budget; its one retried attempt failed retryably; and an operation
that is fatal already on attempt 1 is invoked exactly once. -/
theorem backoff_fatal_short_circuit_witness :
    ((1 ≤ 2 ∧ 2 ≤ 5)
      ∧ retryWithBackoff
          (fun n => if n == 1 then (Except.error timeoutError : Except JsError Unit)
                    else .error ⟨"bad request", some 400⟩) 5
          = (.error ⟨"bad request", some 400⟩, 2))
    ∧ (∃ e, (fun n => if n == 1 then (Except.error timeoutError : Except JsError Unit)
                      else .error ⟨"bad request", some 400⟩) 1
              = Except.error e ∧ isRetryable e = true)
    ∧ retryWithBackoff
        (fun _ => (Except.error ⟨"bad request", some 400⟩ : Except JsError Unit)) 5
        = (.error ⟨"bad request", some 400⟩, 1) := by
  refine ⟨⟨⟨by decide, by decide⟩, ?_⟩, ?_, ?_⟩
  · exact backoff_fatal_short_circuit.2.1 Unit
      (fun n => if n == 1 then .error timeoutError
                else .error ⟨"bad request", some 400⟩)
      5 2 ⟨"bad request", some 400⟩ (by decide) (by decide)
      (fun i h1 h2 => ⟨timeoutError, by
        have hi1 : i = 1 := by omega
        subst hi1
        exact ⟨rfl, by decide⟩⟩)
      rfl (by decide)
  · exact backoff_fatal_short_circuit.2.2.1 Unit
      (fun n => if n == 1 then .error timeoutError
                else .error ⟨"bad request", some 400⟩)
      5 1 (by decide) (by decide)
  · exact backoff_fatal_short_circuit.2.2.2 Unit
      (fun _ => .error ⟨"bad request", some 400⟩) 5 ⟨"bad request", some 400⟩
      (by decide) rfl (by decide)

/-! ## Theorems: admission gate -/

/-- The gate invariant: along any guarded trace, the counter equals the
number of outstanding admitted jobs and never exceeds the ceiling. -/
theorem runGate_inv :
    ∀ (tr : List GateEvent) (c : Int) (o : Nat) (states : List (Int × Nat)),
      c = (o : Int) → c ≤ (MAX_CONCURRENT : Int) →
      runGate (c, o) tr = some states →
      ∀ s ∈ states, s.1 = (s.2 : Int) ∧ s.1 ≤ (MAX_CONCURRENT : Int) := by
  intro tr
  induction tr with
  | nil =>
    intro c o states h1 h2 hrun s hs
    rw [runGate] at hrun
    injection hrun with hrun
    subst hrun
    simp at hs
  | cons ev evs ih =>
    intro c o states h1 h2 hrun s hs
    rw [runGate] at hrun
    split at hrun
    · exact absurd hrun (by simp)
    · rename_i s2 hg
      split at hrun
      · exact absurd hrun (by simp)
      · rename_i states2 hrun2
        simp only [Option.some.injEq] at hrun
        subst hrun
        have hinv2 : s2.1 = (s2.2 : Int) ∧ s2.1 ≤ (MAX_CONCURRENT : Int) := by
          cases ev with
          | admitOk =>
            rw [gateStep] at hg
            by_cases hlt : c < (MAX_CONCURRENT : Int)
            · rw [if_pos hlt] at hg
              injection hg with hg
              subst hg
              constructor
              · push_cast
                omega
              · simp
                omega
            · rw [if_neg hlt] at hg
              exact absurd hg (by simp)
          | admitFail =>
            rw [gateStep] at hg
            by_cases hle : (MAX_CONCURRENT : Int) ≤ c
            · rw [if_pos hle] at hg
              injection hg with hg
              subst hg
              exact ⟨h1, h2⟩
            · rw [if_neg hle] at hg
              exact absurd hg (by simp)
          | rel =>
            rw [gateStep] at hg
            by_cases hpos : 0 < o
            · rw [if_pos hpos] at hg
              injection hg with hg
              subst hg
              constructor
              · simp
                omega
              · simp
                omega
            · rw [if_neg hpos] at hg
              exact absurd hg (by simp)
        rcases List.mem_cons.mp hs with hs1 | hs1
        · subst hs1
          exact hinv2
        · exact ih s2.1 s2.2 states2 hinv2.1 hinv2.2 (by simpa using hrun2) s hs1

/-- **C1**: the in-flight counter satisfies `0 <= count <= MAX_CONCURRENT` at
every state of every guarded trace from process start; and for every admitted
job `processWithConcurrencyLimit` performs exactly one increment and exactly
one `finally` decrement, whether the wrapped operation resolves or rejects,
leaving the counter unchanged overall. -/
theorem inflight_counter_invariant :
    (∀ (tr : List GateEvent) (states : List (Int × Nat)),
        runGate (0, 0) tr = some states →
        ∀ s ∈ states, 0 ≤ s.1 ∧ s.1 ≤ (MAX_CONCURRENT : Int))
    ∧ (∀ (α : Type) (c : Int) (req : Except JsError α),
        c < (MAX_CONCURRENT : Int) →
        processWithConcurrencyLimit c req = (c, req, [.admitOk, .rel]))
    ∧ (∀ (α : Type) (c : Int) (req : Except JsError α),
        (MAX_CONCURRENT : Int) ≤ c →
        processWithConcurrencyLimit c req = (c, .error tooManyError, [.admitFail])) := by
  refine ⟨?_, ?_, ?_⟩
  · intro tr states hrun s hs
    have h := runGate_inv tr 0 0 states (by simp) (by simp) hrun s hs
    constructor
    · rw [h.1]
      positivity
    · exact h.2
  · intro α c req hlt
    rw [processWithConcurrencyLimit, if_neg (by omega)]
    simp
  · intro α c req hle
    rw [processWithConcurrencyLimit, if_pos hle]

/-- Witness for C1: a one-admission trace stays within bounds, an admitted
job that rejects still performs its single release, and a saturated admission
attempt leaves the counter at 20. -/
theorem inflight_counter_invariant_witness :
    ((0 : Int) ≤ 1 ∧ (1 : Int) ≤ (MAX_CONCURRENT : Int))
    ∧ processWithConcurrencyLimit (α := Unit) 5 (Except.error timeoutError)
        = (5, Except.error timeoutError, [GateEvent.admitOk, GateEvent.rel])
    ∧ processWithConcurrencyLimit (α := Unit) 20 (Except.ok ())
        = (20, Except.error tooManyError, [GateEvent.admitFail]) := by
  refine ⟨?_, ?_, ?_⟩
  · exact inflight_counter_invariant.1 [GateEvent.admitOk] [(1, 1)] (by rfl) (1, 1)
      (by simp)
  · exact inflight_counter_invariant.2.1 Unit 5 (Except.error timeoutError) (by decide)
  · exact inflight_counter_invariant.2.2 Unit 20 (Except.ok ()) (by decide)

/-- In a release-free sequence of admission attempts, the number of
successes is bounded by the remaining headroom. -/
theorem tryAdmitSeq_le :
    ∀ (n : Nat) (c : Int),
      (tryAdmitSeq c n).2 ≤ ((MAX_CONCURRENT : Int) - c).toNat := by
  intro n
  induction n with
  | zero => intro c; simp [tryAdmitSeq]
  | succ k ih =>
    intro c
    rw [tryAdmitSeq]
    by_cases h : (MAX_CONCURRENT : Int) ≤ c
    · rw [if_pos h]
      exact ih c
    · rw [if_neg h]
      show (tryAdmitSeq (c + 1) k).2 + 1 ≤ ((MAX_CONCURRENT : Int) - c).toNat
      have h2 := ih (c + 1)
      omega

/-- **C4**: when the counter has reached the ceiling, the admission attempt of
a `/tmai` job fails with the counter unchanged, no provider call, and the
"Too many requests at once. Please try again in a moment." message posted to
the job's acknowledgment thread; and in any release-free sequence of
admission attempts from process start, at most `MAX_CONCURRENT` succeed. -/
theorem admission_rejection :
    (∀ (active : Int) (ch th : String) (work : Except JsError Unit × List Effect),
        (MAX_CONCURRENT : Int) ≤ active →
        handleTMAIAsync active ch th work (.ok ())
          = (active, .notifiedError ("❌ " ++ tooManyError.message),
              [.postMessage ch ("❌ " ++ tooManyError.message) th])
          ∧ Effect.providerCall ∉ (handleTMAIAsync active ch th work (.ok ())).2.2)
    ∧ (∀ n : Nat, (tryAdmitSeq 0 n).2 ≤ MAX_CONCURRENT) := by
  constructor
  · intro active ch th work h
    have heq : handleTMAIAsync active ch th work (.ok ())
        = (active, .notifiedError ("❌ " ++ tooManyError.message),
            [.postMessage ch ("❌ " ++ tooManyError.message) th]) := by
      rw [handleTMAIAsync, if_pos h]
    refine ⟨heq, ?_⟩
    rw [heq]
    simp
  · intro n
    have h := tryAdmitSeq_le n 0
    simp only [MAX_CONCURRENT] at h ⊢
    omega

/-- Witness for C4: with the counter at 20, a 21st job is rejected with the
"too many requests" message and no provider call; 25 release-free attempts
from 0 yield at most 20 successes. -/
theorem admission_rejection_witness :
    ((MAX_CONCURRENT : Int) ≤ 20
      ∧ handleTMAIAsync 20 "C" "T" (Except.ok (), [Effect.providerCall]) (.ok ())
          = (20, .notifiedError ("❌ " ++ tooManyError.message),
              [.postMessage "C" ("❌ " ++ tooManyError.message) "T"]))
    ∧ (tryAdmitSeq 0 25).2 ≤ MAX_CONCURRENT := by
  refine ⟨⟨by decide, ?_⟩, ?_⟩
  · exact (admission_rejection.1 20 "C" "T" (Except.ok (), [Effect.providerCall])
      (by decide)).1
  · exact admission_rejection.2 25

/-! ## Theorems: event deduplication -/

/-- `takeLast` is the identity on lists no longer than the bound. -/
theorem takeLast_of_length_le {α : Type} (n : Nat) (l : List α)
    (h : l.length ≤ n) : takeLast n l = l := by
  rw [takeLast]
  have h0 : l.length - n = 0 := by omega
  rw [h0, List.drop_zero]

/-- Keeping the last `n` elements is stable under appending after a previous
truncation to the last `n` elements. -/
theorem takeLast_append_takeLast {α : Type} (n : Nat) (x y : List α) :
    takeLast n (takeLast n x ++ y) = takeLast n (x ++ y) := by
  by_cases h : x.length ≤ n
  · rw [takeLast_of_length_le n x h]
  · rw [takeLast, takeLast, takeLast]
    have hd : x.length - n ≤ x.length := by omega
    have hlen : ((x.drop (x.length - n)) ++ y).length - n = y.length := by
      simp only [List.length_append, List.length_drop]
      omega
    rw [hlen, ← List.drop_append_of_le_length hd, List.drop_drop]
    congr 1
    simp only [List.length_append]
    omega

/-- A fresh key is appended and the set truncated to its last 100 members. -/
theorem markProcessedEvent_fresh (seen : List String) (k : String)
    (hk : k ∉ seen) (hlen : seen.length ≤ 100) :
    markProcessedEvent seen k = (false, takeLast 100 (seen ++ [k])) := by
  rw [markProcessedEvent, if_neg hk]
  show (if 100 < (seen ++ [k]).length then (false, (seen ++ [k]).drop 1)
        else (false, seen ++ [k])) = _
  by_cases h : 100 < (seen ++ [k]).length
  · rw [if_pos h]
    have hlen2 : (seen ++ [k]).length - 100 = 1 := by
      simp only [List.length_append, List.length_singleton] at h ⊢
      omega
    rw [takeLast, hlen2]
  · rw [if_neg h, takeLast_of_length_le 100 _ (by omega)]

/-- Feeding pairwise-distinct keys into the dedup set retains exactly the
last 100 of them. -/
theorem insertAll_eq_takeLast :
    ∀ (ks seen : List String), (seen ++ ks).Nodup → seen.length ≤ 100 →
      insertAll seen ks = takeLast 100 (seen ++ ks) := by
  intro ks
  induction ks with
  | nil =>
    intro seen hnd hlen
    rw [insertAll, List.append_nil, takeLast_of_length_le 100 seen hlen]
  | cons k ks ih =>
    intro seen hnd hlen
    have hks : k ∉ seen := by
      intro hc
      rcases List.nodup_append.mp hnd with ⟨-, -, hdisj⟩
      exact hdisj hc (List.mem_cons_self k ks)
    simp only [insertAll, markProcessedEvent_fresh seen k hks hlen]
    have hre : seen ++ k :: ks = (seen ++ [k]) ++ ks := by simp
    have hnd2 : ((seen ++ [k]) ++ ks).Nodup := by rw [← hre]; exact hnd
    have hsub : (takeLast 100 (seen ++ [k]) ++ ks).Sublist ((seen ++ [k]) ++ ks) :=
      List.Sublist.append_right (by rw [takeLast]; exact List.drop_sublist _ _) ks
    have hnd3 : (takeLast 100 (seen ++ [k]) ++ ks).Nodup := hnd2.sublist hsub
    have hl2 : (takeLast 100 (seen ++ [k])).length ≤ 100 := by
      rw [takeLast]
      simp only [List.length_drop]
      omega
    rw [ih (takeLast 100 (seen ++ [k])) hnd3 hl2, takeLast_append_takeLast, hre]

/-- **C5**: one dedup step never grows the set beyond 100 keys; and feeding
101 pairwise-distinct keys into the empty set retains exactly the 100 most
recent keys, the first-inserted key being the one evicted. -/
theorem dedup_bounded_memory :
    (∀ (seen : List String) (k : String), seen.length ≤ 100 →
        ((markProcessedEvent seen k).2).length ≤ 100)
    ∧ (∀ ks : List String, ks.Nodup → ks.length = 101 →
        insertAll [] ks = ks.drop 1
        ∧ (insertAll [] ks).length = 100
        ∧ ∀ h, ks.head? = some h → h ∉ insertAll [] ks) := by
  constructor
  · intro seen k hlen
    rw [markProcessedEvent]
    by_cases h : k ∈ seen
    · rw [if_pos h]
      exact hlen
    · rw [if_neg h]
      show (if 100 < (seen ++ [k]).length then (false, (seen ++ [k]).drop 1)
            else (false, seen ++ [k])).2.length ≤ 100
      by_cases h2 : 100 < (seen ++ [k]).length
      · rw [if_pos h2]
        simp only [List.length_drop, List.length_append, List.length_singleton]
        omega
      · rw [if_neg h2]
        show (seen ++ [k]).length ≤ 100
        omega
  · intro ks hnd hlen
    have heq : insertAll [] ks = takeLast 100 ks := by
      have h := insertAll_eq_takeLast ks [] (by simpa using hnd) (by simp)
      simpa using h
    have hdrop : insertAll [] ks = ks.drop 1 := by
      rw [heq, takeLast, hlen]
    refine ⟨hdrop, ?_, ?_⟩
    · rw [hdrop]
      simp [hlen]
    · intro h hh
      rw [hdrop]
      cases ks with
      | nil => simp at hh
      | cons a t =>
        simp only [List.head?_cons, Option.some.injEq] at hh
        subst hh
        simp only [List.drop_succ_cons, List.drop_zero]
        exact (List.nodup_cons.mp hnd).1

/-- Witness for C5: a concrete one-step bound, and 101 pairwise-distinct
single-character keys of which exactly the last 100 are retained. -/
theorem dedup_bounded_memory_witness :
    (["k"].length ≤ 100 ∧ ((markProcessedEvent ["k"] "k2").2).length ≤ 100)
    ∧ ((List.range 101).map (fun n => String.mk [Char.ofNat (48 + n)])).Nodup
    ∧ (insertAll []
        ((List.range 101).map (fun n => String.mk [Char.ofNat (48 + n)]))).length
        = 100 := by
  refine ⟨⟨by decide, ?_⟩, ?_, ?_⟩
  · exact dedup_bounded_memory.1 ["k"] "k2" (by decide)
  · decide
  · exact (dedup_bounded_memory.2 _ (by decide) (by decide)).2.1

/-- After a dedup step on `k`, the key `k` is a member of the set. -/
theorem mem_markProcessedEvent (seen : List String) (k : String) :
    k ∈ (markProcessedEvent seen k).2 := by
  rw [markProcessedEvent]
  by_cases h : k ∈ seen
  · rw [if_pos h]
    exact h
  · rw [if_neg h]
    show k ∈ (if 100 < (seen ++ [k]).length then (false, (seen ++ [k]).drop 1)
              else (false, seen ++ [k])).2
    by_cases h2 : 100 < (seen ++ [k]).length
    · rw [if_pos h2]
      have hlen : 1 ≤ seen.length := by
        simp only [List.length_append, List.length_singleton] at h2
        omega
      show k ∈ (seen ++ [k]).drop 1
      rw [List.drop_append_of_le_length hlen]
      simp
    · rw [if_neg h2]
      simp

/-- **C6**: a dedup check on a fresh key `k` returns `false` and inserts `k`;
an immediately repeated check on the same `k` returns `true` and leaves the
set unchanged; and the second delivery of the same mention event is skipped
by the handler with no message posted, no acknowledgment, and no job
dispatched. -/
theorem dedup_idempotence (seen : List String) (k : String) (hk : k ∉ seen)
    (bot : String) (e : MentionEvent) (he : dedupKey e = k) :
    (markProcessedEvent seen k).1 = false
    ∧ (markProcessedEvent (markProcessedEvent seen k).2 k).1 = true
    ∧ (markProcessedEvent (markProcessedEvent seen k).2 k).2
        = (markProcessedEvent seen k).2
    ∧ handleMention (markProcessedEvent seen k).2 bot e
        = (.skippedDuplicate, (markProcessedEvent seen k).2, []) := by
  have hmk : markProcessedEvent ((markProcessedEvent seen k).2) k
      = (true, (markProcessedEvent seen k).2) := by
    rw [markProcessedEvent, if_pos (mem_markProcessedEvent seen k)]
  refine ⟨?_, ?_, ?_, ?_⟩
  · rw [markProcessedEvent, if_neg hk]
    show (if 100 < (seen ++ [k]).length then (false, (seen ++ [k]).drop 1)
          else (false, seen ++ [k])).1 = false
    by_cases h2 : 100 < (seen ++ [k]).length
    · rw [if_pos h2]
    · rw [if_neg h2]
  · rw [hmk]
  · rw [hmk]
  · simp [handleMention, he, hmk]

/-- Witness for C6: the key `C_U_1` is fresh in the empty set, its first check
inserts it, and a second delivery of the same event is skipped with no
effects. -/
theorem dedup_idempotence_witness :
    ("C_U_1" ∉ ([] : List String))
    ∧ (markProcessedEvent [] "C_U_1").1 = false
    ∧ (markProcessedEvent (markProcessedEvent [] "C_U_1").2 "C_U_1").1 = true
    ∧ handleMention (markProcessedEvent [] "C_U_1").2 "B" ⟨"C", "U", "x", "1", "1", 0⟩
        = (.skippedDuplicate, (markProcessedEvent [] "C_U_1").2, []) := by
  have h := dedup_idempotence [] "C_U_1" (by simp) "B" ⟨"C", "U", "x", "1", "1", 0⟩
    (by decide)
  exact ⟨by simp, h.1, h.2.1, h.2.2.2⟩

/-! ## Theorems: dispatcher error handling and validation -/

/-- **C7 counterexample**: the claim says no exception escapes the async
execution path and that a failed notification delivery is logged and
swallowed.  But the `catch` blocks post the error notification unguarded:
here the admitted work fails, the `catch`-block `chat.postMessage` itself
rejects, and the async callback terminates with an escaped (uncaught)
exception instead of swallowing it. -/
theorem dispatcher_notification_escape_counterexample :
    handleTMAIAsync 0 "C" "T" (Except.error ⟨"boom", none⟩, [Effect.providerCall])
        (Except.error ⟨"slack down", none⟩)
      = (0, .escapedException ⟨"slack down", none⟩, [Effect.providerCall]) := by rfl

/-- **C7 amended**: every terminal failure of the admitted work is converted
into a user-facing `❌`-prefixed notification in the acknowledgment thread
when the notification call succeeds; but when the notification call itself
fails, its exception escapes the dispatcher's async path uncaught (the
counter is still restored by the `finally` release either way). -/
theorem dispatcher_error_notification (active : Int) (ch th : String)
    (e : JsError) (eff : List Effect) (h : active < (MAX_CONCURRENT : Int)) :
    handleTMAIAsync active ch th (.error e, eff) (.ok ())
        = (active, .notifiedError ("❌ " ++ e.message),
            eff ++ [.postMessage ch ("❌ " ++ e.message) th])
    ∧ ∀ e2 : JsError,
        handleTMAIAsync active ch th (.error e, eff) (.error e2)
          = (active, .escapedException e2, eff) := by
  constructor
  · rw [handleTMAIAsync, if_neg (by omega)]
    simp
  · intro e2
    rw [handleTMAIAsync, if_neg (by omega)]
    simp

/-- Witness for the amended C7: a concrete failed job whose notification
succeeds, notified with the error text. -/
theorem dispatcher_error_notification_witness :
    ((0 : Int) < (MAX_CONCURRENT : Int))
    ∧ handleTMAIAsync 0 "C" "T"
        (Except.error ⟨"boom", none⟩, [Effect.providerCall]) (.ok ())
        = (0, .notifiedError ("❌ " ++ JsError.message ⟨"boom", none⟩),
            [Effect.providerCall]
              ++ [.postMessage "C" ("❌ " ++ JsError.message ⟨"boom", none⟩) "T"]) := by
  refine ⟨by decide, ?_⟩
  exact (dispatcher_error_notification 0 "C" "T" ⟨"boom", none⟩
    [Effect.providerCall] (by decide)).1

/-- **C8 counterexample**: a mention trigger carrying the unrecognized
aspect-ratio token `2:3` does not fall back to `16:9`: the handler posts a
user-facing `❌ Unsupported aspect ratio` error into the thread and the job
terminates without dispatch. -/
theorem ratio_fallback_counterexample :
    handleMention [] "U1"
        ⟨"C1", "U2", "<@U1> draw a cat --ratio 2:3", "111.2", "111.2", 1⟩
      = (.unsupportedRatio "2:3", ["C1_U2_111.2"],
          [.postMessage "C1" (unsupportedRatioMsg "2:3") "111.2"]) := by rfl

/-- **C8 amended**: for slash-command triggers, `parsePromptWithFlags` uses a
recognized `--ratio` token as given and silently falls back to the default
`16:9` (with only a console warning) on an unrecognized token — it never
produces an error.  For mention triggers, a `--ratio` token of shape
`digits:digits` outside the recognized set makes the handler post a
user-facing `❌ Unsupported aspect ratio` message and terminate the job
instead of falling back; a recognized token is used as given. -/
theorem ratio_fallback_amended :
    (∀ (t : String) (whole tok : List Char),
        findRatioFlag t.toList = some (whole, tok) →
        (parsePromptWithFlags t).ratio
          = (if supportedRatios.contains (String.mk tok) then String.mk tok
             else "16:9"))
    ∧ (∀ t : String, findRatioFlag t.toList = none →
        (parsePromptWithFlags t).ratio = "16:9")
    ∧ (∀ (seen : List String) (bot : String) (e : MentionEvent) (p : String)
          (whole tok : List Char),
        (markProcessedEvent seen (dedupKey e)).1 = false →
        (e.user == "" || e.channel == "" || e.text == ""
            || String.mk (trimJs e.text.toList) == "") = false →
        p = String.mk (trimJs (replaceFirst e.text.toList.length
              ("<@" ++ bot ++ ">").toList e.text.toList)) →
        (p == "") = false →
        findDigitsRatio p.toList = some (whole, tok) →
        supportedRatios.contains (String.mk tok) = false →
        handleMention seen bot e
          = (.unsupportedRatio (String.mk tok),
              (markProcessedEvent seen (dedupKey e)).2,
              [.postMessage e.channel (unsupportedRatioMsg (String.mk tok)) e.ts])) := by
  refine ⟨?_, ?_, ?_⟩
  · intro t whole tok hfind
    rw [parsePromptWithFlags]
    simp only [hfind]
  · intro t hfind
    rw [parsePromptWithFlags]
    simp only [hfind]
  · intro seen bot e p whole tok h1 h2 hp hne hfind hcontains
    subst hp
    simp only [handleMention, h1, Bool.false_eq_true, if_false, h2, hne, hfind,
      hcontains]

/-- Witness for the amended C8: a recognized slash token is used as given, a
flag-free prompt gets the default, and the mention handler rejects `2:3` with
the user-facing error message. -/
theorem ratio_fallback_amended_witness :
    (parsePromptWithFlags "cat --ratio 4:3").ratio
        = (if supportedRatios.contains (String.mk "4:3".toList)
           then String.mk "4:3".toList else "16:9")
    ∧ (parsePromptWithFlags "just a cat").ratio = "16:9"
    ∧ handleMention [] "U1" ⟨"C1", "U2", "<@U1> draw --ratio 2:3", "9.9", "9.9", 1⟩
        = (.unsupportedRatio (String.mk "2:3".toList),
            (markProcessedEvent []
              (dedupKey ⟨"C1", "U2", "<@U1> draw --ratio 2:3", "9.9", "9.9", 1⟩)).2,
            [.postMessage "C1" (unsupportedRatioMsg (String.mk "2:3".toList)) "9.9"]) := by
  refine ⟨?_, ?_, ?_⟩
  · exact ratio_fallback_amended.1 "cat --ratio 4:3" "--ratio 4:3".toList
      "4:3".toList (by rfl)
  · exact ratio_fallback_amended.2.1 "just a cat" (by rfl)
  · exact ratio_fallback_amended.2.2 [] "U1"
      ⟨"C1", "U2", "<@U1> draw --ratio 2:3", "9.9", "9.9", 1⟩
      "draw --ratio 2:3" "--ratio 2:3".toList "2:3".toList
      (by rfl) (by rfl) (by rfl) (by rfl) (by rfl) (by rfl)

/-- **C9**: a job request whose prompt parses to the empty string receives an
immediate validation response: the slash dispatcher returns the ephemeral
usage message with the counter untouched, nothing scheduled and no effects;
the mention handler posts the description-missing message and terminates
without acknowledgment, dispatch, or any admission attempt. -/
theorem empty_prompt_validation :
    (∀ (active : Int) (text ch : String),
        (parsePromptWithFlags text).prompt = "" →
        handleTMAISlashCommandSync active text ch
          = (.validationError, active, false, []))
    ∧ (∀ (seen : List String) (bot : String) (e : MentionEvent),
        (markProcessedEvent seen (dedupKey e)).1 = false →
        (e.user == "" || e.channel == "" || e.text == ""
            || String.mk (trimJs e.text.toList) == "") = false →
        String.mk (trimJs (replaceFirst e.text.toList.length
            ("<@" ++ bot ++ ">").toList e.text.toList)) = "" →
        handleMention seen bot e
          = (.promptMissing, (markProcessedEvent seen (dedupKey e)).2,
              [.postMessage e.channel descriptionMissingMsg e.ts])) := by
  constructor
  · intro active text ch hp
    rw [handleTMAISlashCommandSync]
    simp [hp]
  · intro seen bot e h1 h2 h3
    simp only [handleMention, h1, Bool.false_eq_true, if_false, h2, h3]
    simp

/-- Witness for C9: a command that is all flags parses to an empty prompt and
is rejected synchronously; a bare mention with no prompt text gets the
description-missing message. -/
theorem empty_prompt_validation_witness :
    (parsePromptWithFlags "--ratio 16:9").prompt = ""
    ∧ handleTMAISlashCommandSync 7 "--ratio 16:9" "C"
        = (.validationError, 7, false, [])
    ∧ handleMention [] "B" ⟨"C", "U", "<@B>", "5.5", "5.5", 0⟩
        = (.promptMissing,
            (markProcessedEvent [] (dedupKey ⟨"C", "U", "<@B>", "5.5", "5.5", 0⟩)).2,
            [.postMessage "C" descriptionMissingMsg "5.5"]) := by
  refine ⟨by rfl, ?_, ?_⟩
  · exact empty_prompt_validation.1 7 "--ratio 16:9" "C" (by rfl)
  · exact empty_prompt_validation.2 [] "B" ⟨"C", "U", "<@B>", "5.5", "5.5", 0⟩
      (by rfl) (by rfl) (by rfl)

/-- **C10**: for every `event_callback` request whose event type is
`app_mention`, the server.js `/slack/image` handler hits the assignment to
the `const`-declared `eventId` (line 871) before the duplicate check, so the
handler always throws: the endpoint replies 500 `Webhook processing failed`,
the dedup set is unchanged, and no message, acknowledgment, or dispatch ever
happens in this handler. -/
theorem mention_handler_const_bug (seen : List String) (bot eid : String)
    (e : MentionEvent) :
    slackImageEndpointServerJs seen bot (.eventCallback "app_mention" e eid)
      = (.http500 "Webhook processing failed", seen, []) := by rfl
